import Mathlib

/-!
Verification of the per-pixel temporal motion-stabilization kernel `CSMain`
(the TAA v2 compute shader embedded in `src/update_tm.py`).

The shader's `float` arithmetic is embedded as exact rationals (`ℚ`).  The
shader compares Euclidean lengths (`length(v)`) against positive constants;
since `length v ≥ 0`, the comparison `length v < c` (resp. `> c`) for `c > 0`
is equivalent to `sqLen v < c*c` (resp. `> c*c`), and the embedding performs
the comparisons on squared lengths so that every definition stays computable.
The bridge to the real Euclidean magnitude is proved in `lenR_lt_iff` /
`lenR_gt_iff` below.

Each GPU thread invocation is modelled as a function from its dispatch-thread
id to the list of writes it performs on `MotionOut` and on `ConfOut`; an
invocation that returns early produces the writes issued before the `return`.
-/

namespace MotionTAA

/-- A 2D vector of rationals; models an HLSL `float2` exactly. -/
abbrev Vec2 : Type := ℚ × ℚ

/-- Componentwise minimum (HLSL `min` on `float2`). -/
def vmin (a b : Vec2) : Vec2 := (min a.1 b.1, min a.2 b.2)

/-- Componentwise maximum (HLSL `max` on `float2`). -/
def vmax (a b : Vec2) : Vec2 := (max a.1 b.1, max a.2 b.2)

/-- HLSL `clamp(v, lo, hi) = min(max(v, lo), hi)` componentwise on `float2`. -/
def vclamp (v lo hi : Vec2) : Vec2 :=
  (min (max v.1 lo.1) hi.1, min (max v.2 lo.2) hi.2)

/-- Componentwise subtraction on `float2`. -/
def vsub (a b : Vec2) : Vec2 := (a.1 - b.1, a.2 - b.2)

/-- Componentwise multiplication on `float2`. -/
def vmul (a b : Vec2) : Vec2 := (a.1 * b.1, a.2 * b.2)

/-- Squared Euclidean length `dot(v, v)`. -/
def sqLen (v : Vec2) : ℚ := v.1 * v.1 + v.2 * v.2

/-- The real Euclidean magnitude of a vector, HLSL `length(v)`.  Used only in
specification statements; the kernel itself compares squared lengths. -/
noncomputable def lenR (v : Vec2) : ℝ := Real.sqrt ((sqLen v : ℚ) : ℝ)

/-- HLSL `lerp(a, b, t) = a + (b - a) * t` on scalars. -/
def lerpQ (a b t : ℚ) : ℚ := a + (b - a) * t

/-- HLSL `lerp` on `float2` is componentwise. -/
def lerp2 (a b : Vec2) (t : ℚ) : Vec2 := (lerpQ a.1 b.1 t, lerpQ a.2 b.2 t)

/-- The inputs of one dispatch of `CSMain`: the six input textures (grids of
per-pixel values, all of dimensions `width × height`), and the `TemporalCB`
constant buffer fields.  Grids are total functions; the kernel only ever reads
them at coordinates inside `[0,width) × [0,height)`. -/
structure Inputs where
  width : Nat
  height : Nat
  motionCurr : Nat → Nat → Vec2
  confCurr : Nat → Nat → ℚ
  motionHistory : Nat → Nat → Vec2
  confHistory : Nat → Nat → ℚ
  lumaPrev : Nat → Nat → ℚ
  lumaCurr : Nat → Nat → ℚ
  historyWeight : ℚ
  confInfluence : ℚ
  resetHistory : Bool

/-- `float2 texelSize = 1.0 / float2(width, height);` -/
def texelSizeOf (inp : Inputs) : Vec2 :=
  (1 / (inp.width : ℚ), 1 / (inp.height : ℚ))

/-- `float2 uv = (float2(id.xy) + 0.5) * texelSize;` -/
def uvAt (inp : Inputs) (x y : Nat) : Vec2 :=
  (((x : ℚ) + 1/2) * (texelSizeOf inp).1, ((y : ℚ) + 1/2) * (texelSizeOf inp).2)

/-- `float2 currMotion = MotionCurr.Load(int3(id.xy, 0));` -/
def currMotionAt (inp : Inputs) (x y : Nat) : Vec2 := inp.motionCurr x y

/-- `float currConf = ConfCurr.Load(int3(id.xy, 0));` -/
def currConfAt (inp : Inputs) (x y : Nat) : ℚ := inp.confCurr x y

/-- The 9 offsets of the unrolled 3×3 neighborhood loop, in source order
(`y` outer from -1 to 1, `x` inner from -1 to 1), as `(x, y)` pairs. -/
def nbhd : List (ℤ × ℤ) :=
  [(-1,-1),(0,-1),(1,-1),(-1,0),(0,0),(1,0),(-1,1),(0,1),(1,1)]

/-- HLSL integer `clamp(v, lo, hi) = min(max(v, lo), hi)`. -/
def clampZ (v lo hi : ℤ) : ℤ := min (max v lo) hi

/-- `int2 nPos = id.xy + int2(x, y); nPos = clamp(nPos, int2(0,0), int2(width-1, height-1));` -/
def nPosAt (inp : Inputs) (x y : Nat) (d : ℤ × ℤ) : Nat × Nat :=
  ((clampZ ((x : ℤ) + d.1) 0 ((inp.width : ℤ) - 1)).toNat,
   (clampZ ((y : ℤ) + d.2) 0 ((inp.height : ℤ) - 1)).toNat)

/-- `float2 nMotion = MotionCurr.Load(int3(nPos, 0));` -/
def nSampleAt (inp : Inputs) (x y : Nat) (d : ℤ × ℤ) : Vec2 :=
  inp.motionCurr (nPosAt inp x y d).1 (nPosAt inp x y d).2

/-- `minMotion`: starts at `currMotion` and folds `min` over the 9 neighborhood
loads (the loop also revisits the center). -/
def minMotionAt (inp : Inputs) (x y : Nat) : Vec2 :=
  (nbhd.map (nSampleAt inp x y)).foldl vmin (currMotionAt inp x y)

/-- `maxMotion`: starts at `currMotion` and folds `max` over the 9 neighborhood
loads. -/
def maxMotionAt (inp : Inputs) (x y : Nat) : Vec2 :=
  (nbhd.map (nSampleAt inp x y)).foldl vmax (currMotionAt inp x y)

/-- `float2 historyUV = uv - (currMotion * texelSize);` -/
def historyUVAt (inp : Inputs) (x y : Nat) : Vec2 :=
  vsub (uvAt inp x y) (vmul (currMotionAt inp x y) (texelSizeOf inp))

/-- `bool validHistory = !resetHistory;` followed by
`if (historyUV.x < 0 || historyUV.y < 0 || historyUV.x > 1 || historyUV.y > 1) validHistory = false;` -/
def validHistoryAt (inp : Inputs) (x y : Nat) : Bool :=
  !inp.resetHistory &&
    !(decide ((historyUVAt inp x y).1 < 0) || decide ((historyUVAt inp x y).2 < 0) ||
      decide ((historyUVAt inp x y).1 > 1) || decide ((historyUVAt inp x y).2 > 1))

/-- One axis of `SampleLevel` with a linear clamp sampler (D3D convention):
the sample position in texel space is `u * size - 0.5`; the two contributing
texel indices are its floor and floor+1, both clamped to `[0, size-1]`, and
the returned fraction weights the second one. -/
def sampleAxis (size : Nat) (u : ℚ) : Nat × Nat × ℚ :=
  let t : ℚ := u * (size : ℚ) - 1/2
  let i : ℤ := ⌊t⌋
  ((clampZ i 0 ((size : ℤ) - 1)).toNat, (clampZ (i + 1) 0 ((size : ℤ) - 1)).toNat,
   t - (i : ℚ))

/-- Bilinear interpolation of four texel values with fractions `fx`, `fy`. -/
def bilerpQ (v00 v10 v01 v11 fx fy : ℚ) : ℚ :=
  (v00 * (1 - fx) + v10 * fx) * (1 - fy) + (v01 * (1 - fx) + v11 * fx) * fy

/-- `Texture2D<float>.SampleLevel(LinearClamp, uv, 0)`: bilinear filtering with
edge-clamped addressing. -/
def sampleLinearClampQ (g : Nat → Nat → ℚ) (w h : Nat) (uv : Vec2) : ℚ :=
  bilerpQ (g (sampleAxis w uv.1).1 (sampleAxis h uv.2).1)
    (g (sampleAxis w uv.1).2.1 (sampleAxis h uv.2).1)
    (g (sampleAxis w uv.1).1 (sampleAxis h uv.2).2.1)
    (g (sampleAxis w uv.1).2.1 (sampleAxis h uv.2).2.1)
    (sampleAxis w uv.1).2.2 (sampleAxis h uv.2).2.2

/-- `Texture2D<float2>.SampleLevel(LinearClamp, uv, 0)`: componentwise. -/
def sampleLinearClamp2 (g : Nat → Nat → Vec2) (w h : Nat) (uv : Vec2) : Vec2 :=
  (sampleLinearClampQ (fun a b => (g a b).1) w h uv,
   sampleLinearClampQ (fun a b => (g a b).2) w h uv)

/-- `float2 historyMotion = MotionHistory.SampleLevel(LinearClamp, historyUV, 0);` -/
def historyMotionAt (inp : Inputs) (x y : Nat) : Vec2 :=
  sampleLinearClamp2 inp.motionHistory inp.width inp.height (historyUVAt inp x y)

/-- `float historyConf = ConfHistory.SampleLevel(LinearClamp, historyUV, 0);` -/
def historyConfAt (inp : Inputs) (x y : Nat) : ℚ :=
  sampleLinearClampQ inp.confHistory inp.width inp.height (historyUVAt inp x y)

/-- `float2 clampedHistory = clamp(historyMotion, minMotion, maxMotion);` -/
def clampedHistoryAt (inp : Inputs) (x y : Nat) : Vec2 :=
  vclamp (historyMotionAt inp x y) (minMotionAt inp x y) (maxMotionAt inp x y)

/-- `float2 diff = clampedHistory - currMotion;` -/
def diffAt (inp : Inputs) (x y : Nat) : Vec2 :=
  vsub (clampedHistoryAt inp x y) (currMotionAt inp x y)

/-- The adaptive blend weight, as a function of the squared deviation
`diffSq = diffLen * diffLen` and the two confidences.  Source sequence:
`alpha = 0.94`; `if (diffLen > 2.0) alpha = 0.8;` — since `diffLen ≥ 0`,
`diffLen > 2.0 ⟺ diffSq > 4`; `if (diffLen > 10.0) alpha = 0.5;` —
`⟺ diffSq > 100`; `if (currConf > 0.9) alpha *= 0.9;`
`if (historyConf < 0.2) alpha = 0.0;`. -/
def alphaOf (diffSq currConf historyConf : ℚ) : ℚ :=
  let a0 : ℚ := 47/50
  let a1 : ℚ := if diffSq > 4 then 4/5 else a0
  let a2 : ℚ := if diffSq > 100 then 1/2 else a1
  let a3 : ℚ := if currConf > 9/10 then a2 * (9/10) else a2
  if historyConf < 1/5 then 0 else a3

/-- The blend weight at a pixel:
`float diffLen = length(diff);` followed by the adjustments above. -/
def alphaAt (inp : Inputs) (x y : Nat) : ℚ :=
  alphaOf (sqLen (diffAt inp x y)) (currConfAt inp x y) (historyConfAt inp x y)

/-- `float2 finalMotion = lerp(currMotion, clampedHistory, alpha);`
(the value before the anti-jitter deadzone). -/
def finalMotionPreAt (inp : Inputs) (x y : Nat) : Vec2 :=
  lerp2 (currMotionAt inp x y) (clampedHistoryAt inp x y) (alphaAt inp x y)

/-- `float finalConf = lerp(currConf, historyConf, alpha);` -/
def finalConfAt (inp : Inputs) (x y : Nat) : ℚ :=
  lerpQ (currConfAt inp x y) (historyConfAt inp x y) (alphaAt inp x y)

/-- `if (length(finalMotion) < 0.1) finalMotion = float2(0, 0);` — since
`length v ≥ 0` and `0.1 > 0`, `length v < 0.1 ⟺ sqLen v < 1/100`. -/
def finalMotionAt (inp : Inputs) (x y : Nat) : Vec2 :=
  if sqLen (finalMotionPreAt inp x y) < 1/100 then (0, 0)
  else finalMotionPreAt inp x y

/-- One invocation of `CSMain` at dispatch-thread id `(x, y)`, returning the
list of writes it performs on `MotionOut` and the list of writes on `ConfOut`
(each write is a coordinate paired with the stored value).
`if (id.x >= width || id.y >= height) return;` writes nothing; the
`if (!validHistory)` passthrough writes `currMotion` / `currConf` and returns;
otherwise the blended `finalMotion` / `finalConf` are written. -/
def CSMain (inp : Inputs) (x y : Nat) :
    List ((Nat × Nat) × Vec2) × List ((Nat × Nat) × ℚ) :=
  if inp.width ≤ x ∨ inp.height ≤ y then ([], [])
  else if !(validHistoryAt inp x y) then
    ([((x, y), currMotionAt inp x y)], [((x, y), currConfAt inp x y)])
  else
    ([((x, y), finalMotionAt inp x y)], [((x, y), finalConfAt inp x y)])

/-- The motion value an in-bounds invocation stores at its own pixel. -/
def motionOutAt (inp : Inputs) (x y : Nat) : Vec2 :=
  if validHistoryAt inp x y then finalMotionAt inp x y else currMotionAt inp x y

/-- The confidence value an in-bounds invocation stores at its own pixel. -/
def confOutAt (inp : Inputs) (x y : Nat) : ℚ :=
  if validHistoryAt inp x y then finalConfAt inp x y else currConfAt inp x y

/-- One whole frame of the filter as a transformer of the history state:
the current-frame fields and configuration come from `inp`, the history
grids are the state; in-bounds pixels are overwritten with the kernel's
output, out-of-bounds grid entries are untouched (no invocation writes
them).  The caller feeds frame N's output back as frame N+1's history. -/
def frameStep (inp : Inputs) (st : (Nat → Nat → Vec2) × (Nat → Nat → ℚ)) :
    (Nat → Nat → Vec2) × (Nat → Nat → ℚ) :=
  (fun x y => if x < inp.width ∧ y < inp.height then
      motionOutAt { inp with motionHistory := st.1, confHistory := st.2 } x y
    else st.1 x y,
   fun x y => if x < inp.width ∧ y < inp.height then
      confOutAt { inp with motionHistory := st.1, confHistory := st.2 } x y
    else st.2 x y)

/-- The blend-weight rule as the spec states it, for comparison with
`alphaOf`: zero when the history confidence is below 0.2, otherwise a base of
0.5 / 0.8 / 0.94 selected by the deviation thresholds (the 10.0 tier
overriding the 2.0 tier) times 0.9 when the current confidence exceeds 0.9.
Deviation thresholds are expressed on the squared length
(`diffLen > 10 ⟺ diffSq > 100`, `diffLen > 2 ⟺ diffSq > 4`). -/
def specAlpha (diffSq currConf historyConf : ℚ) : ℚ :=
  if historyConf < 1/5 then 0
  else (if diffSq > 100 then 1/2 else if diffSq > 4 then 4/5 else 47/50) *
    (if currConf > 9/10 then 9/10 else 1)

/-- A dispatch with the reset flag raised; used to exercise the passthrough
path on concrete data. -/
def inpResetW : Inputs :=
  { width := 2, height := 2,
    motionCurr := fun _ _ => (1, 2), confCurr := fun _ _ => 3/4,
    motionHistory := fun _ _ => (9, 9), confHistory := fun _ _ => 1,
    lumaPrev := fun _ _ => 0, lumaCurr := fun _ _ => 0,
    historyWeight := 0, confInfluence := 0, resetHistory := true }

/-- A small dispatch with zero current motion, so that every in-bounds pixel
has valid history; used to exercise the valid-history path on concrete data. -/
def inpZeroW : Inputs :=
  { width := 3, height := 3,
    motionCurr := fun _ _ => (0, 0), confCurr := fun _ _ => 1/2,
    motionHistory := fun _ _ => (5, -5), confHistory := fun _ _ => 3/4,
    lumaPrev := fun _ _ => 0, lumaCurr := fun _ _ => 0,
    historyWeight := 0, confInfluence := 0, resetHistory := false }

/-- Same kernel-relevant data as `inpResetW` but with different luminance
grids and different reserved configuration scalars. -/
def inpResetW2 : Inputs :=
  { width := 2, height := 2,
    motionCurr := fun _ _ => (1, 2), confCurr := fun _ _ => 3/4,
    motionHistory := fun _ _ => (9, 9), confHistory := fun _ _ => 1,
    lumaPrev := fun _ _ => 8, lumaCurr := fun _ _ => 6,
    historyWeight := 7, confInfluence := 5, resetHistory := true }

/-- A dispatch whose history confidence grid is uniformly 0.1 (< 0.2) while
the current motion is uniformly (0.05, 0): the discard sets `alpha = 0`, but
the blended motion then falls inside the anti-jitter deadzone. -/
def inpTinyDiscard : Inputs :=
  { width := 4, height := 4,
    motionCurr := fun _ _ => (1/20, 0), confCurr := fun _ _ => 1/2,
    motionHistory := fun _ _ => (0, 0), confHistory := fun _ _ => 1/10,
    lumaPrev := fun _ _ => 0, lumaCurr := fun _ _ => 0,
    historyWeight := 0, confInfluence := 0, resetHistory := false }

/-- A dispatch whose history confidence grid is uniformly 0.1 (< 0.2) with a
large current motion, so the discard passes the current values through the
blend and the deadzone does not fire. -/
def inpBigDiscard : Inputs :=
  { width := 4, height := 4,
    motionCurr := fun _ _ => (1, 1), confCurr := fun _ _ => 1/2,
    motionHistory := fun _ _ => (0, 0), confHistory := fun _ _ => 1/10,
    lumaPrev := fun _ _ => 0, lumaCurr := fun _ _ => 0,
    historyWeight := 0, confInfluence := 0, resetHistory := false }

/-- A dispatch with a small but nonzero uniform current motion agreeing with
history, and full confidence everywhere: the blended motion is nonzero yet
inside the deadzone, while the blended confidence stays 1. -/
def inpTinyAgree : Inputs :=
  { width := 4, height := 4,
    motionCurr := fun _ _ => (1/20, 0), confCurr := fun _ _ => 1,
    motionHistory := fun _ _ => (1/20, 0), confHistory := fun _ _ => 1,
    lumaPrev := fun _ _ => 0, lumaCurr := fun _ _ => 0,
    historyWeight := 0, confInfluence := 0, resetHistory := false }

/-- A dispatch with zero current motion and full current confidence on a 2×2
grid; used to exercise the zero-motion fixpoint on concrete data. -/
def inpZeroFix : Inputs :=
  { width := 2, height := 2,
    motionCurr := fun _ _ => (0, 0), confCurr := fun _ _ => 1,
    motionHistory := fun _ _ => (3, 3), confHistory := fun _ _ => 1/2,
    lumaPrev := fun _ _ => 0, lumaCurr := fun _ _ => 0,
    historyWeight := 0, confInfluence := 0, resetHistory := false }

/-! ### Helper lemmas -/

lemma sqLen_nonneg (v : Vec2) : 0 ≤ sqLen v :=
  add_nonneg (mul_self_nonneg _) (mul_self_nonneg _)

/-- Comparing the real Euclidean magnitude with a positive rational bound from
above is the same as comparing the squared length with the squared bound. -/
lemma lenR_lt_iff (v : Vec2) (c : ℚ) (hc : 0 < c) :
    lenR v < (c : ℝ) ↔ sqLen v < c * c := by
  rw [lenR, Real.sqrt_lt' (by exact_mod_cast hc)]
  rw [show ((c : ℝ)) ^ 2 = ((c * c : ℚ) : ℝ) by push_cast; ring]
  exact Rat.cast_lt

/-- Comparing the real Euclidean magnitude with a nonnegative rational bound
from below is the same as comparing the squared length with the squared
bound. -/
lemma lenR_gt_iff (v : Vec2) (c : ℚ) (hc : 0 ≤ c) :
    (c : ℝ) < lenR v ↔ c * c < sqLen v := by
  rw [lenR, Real.lt_sqrt (by exact_mod_cast hc)]
  rw [show ((c : ℝ)) ^ 2 = ((c * c : ℚ) : ℝ) by push_cast; ring]
  exact Rat.cast_lt

/-- The history-validity flag holds exactly when the reset flag is clear and
the reprojected coordinate lies inside the unit square. -/
lemma validHistoryAt_iff (inp : Inputs) (x y : Nat) :
    validHistoryAt inp x y = true ↔
      inp.resetHistory = false ∧
      0 ≤ (historyUVAt inp x y).1 ∧ 0 ≤ (historyUVAt inp x y).2 ∧
      (historyUVAt inp x y).1 ≤ 1 ∧ (historyUVAt inp x y).2 ≤ 1 := by
  simp only [validHistoryAt, Bool.and_eq_true, Bool.not_eq_true', Bool.or_eq_true,
    Bool.or_eq_false_iff, decide_eq_true_eq, not_or, decide_eq_false_iff_not,
    gt_iff_lt, not_lt]
  tauto

lemma foldl_vmin_le_init (l : List Vec2) (a : Vec2) :
    (l.foldl vmin a).1 ≤ a.1 ∧ (l.foldl vmin a).2 ≤ a.2 := by
  induction l generalizing a with
  | nil => exact ⟨le_refl _, le_refl _⟩
  | cons b t ih =>
    have h := ih (vmin a b)
    exact ⟨h.1.trans (min_le_left _ _), h.2.trans (min_le_left _ _)⟩

lemma init_le_foldl_vmax (l : List Vec2) (a : Vec2) :
    a.1 ≤ (l.foldl vmax a).1 ∧ a.2 ≤ (l.foldl vmax a).2 := by
  induction l generalizing a with
  | nil => exact ⟨le_refl _, le_refl _⟩
  | cons b t ih =>
    have h := ih (vmax a b)
    exact ⟨(le_max_left _ _).trans h.1, (le_max_left _ _).trans h.2⟩

lemma foldl_vmin_le_mem (l : List Vec2) (a b : Vec2) (hb : b ∈ l) :
    (l.foldl vmin a).1 ≤ b.1 ∧ (l.foldl vmin a).2 ≤ b.2 := by
  induction l generalizing a with
  | nil => cases hb
  | cons c t ih =>
    rcases List.mem_cons.mp hb with h | h
    · subst h
      have h2 := foldl_vmin_le_init t (vmin a b)
      exact ⟨h2.1.trans (min_le_right _ _), h2.2.trans (min_le_right _ _)⟩
    · exact ih (vmin a c) h

lemma mem_le_foldl_vmax (l : List Vec2) (a b : Vec2) (hb : b ∈ l) :
    b.1 ≤ (l.foldl vmax a).1 ∧ b.2 ≤ (l.foldl vmax a).2 := by
  induction l generalizing a with
  | nil => cases hb
  | cons c t ih =>
    rcases List.mem_cons.mp hb with h | h
    · subst h
      have h2 := init_le_foldl_vmax t (vmax a b)
      exact ⟨(le_max_right _ _).trans h2.1, (le_max_right _ _).trans h2.2⟩
    · exact ih (vmax a c) h

/-- Bilinear sampling of a constant grid yields the constant, whatever the
sample coordinate and the weights. -/
lemma sampleLinearClampQ_const (c : ℚ) (w h : Nat) (uv : Vec2) :
    sampleLinearClampQ (fun _ _ => c) w h uv = c := by
  simp only [sampleLinearClampQ, bilerpQ]
  ring

lemma sampleLinearClamp2_const (c : Vec2) (w h : Nat) (uv : Vec2) :
    sampleLinearClamp2 (fun _ _ => c) w h uv = c := by
  simp only [sampleLinearClamp2]
  rw [show (fun (a b : Nat) => ((fun _ _ => c) a b : Vec2).1) = fun _ _ => c.1 from rfl]
  rw [show (fun (a b : Nat) => ((fun _ _ => c) a b : Vec2).2) = fun _ _ => c.2 from rfl]
  rw [sampleLinearClampQ_const, sampleLinearClampQ_const]

/-! ### Claims -/

/-- Claim C1: for every in-bounds pixel, if the reset flag is set or the
reprojected coordinate `historyUV = uv - currMotion * texelSize` leaves the
unit square in either axis, the invocation writes exactly `currMotion` and
`currConf` at its own pixel, whatever the history grids hold — no later stage
(clamping, blending, deadzone) alters the values. -/
theorem passthrough_exact (inp : Inputs) (x y : Nat)
    (hx : x < inp.width) (hy : y < inp.height)
    (h : inp.resetHistory = true ∨ (historyUVAt inp x y).1 < 0 ∨
      (historyUVAt inp x y).2 < 0 ∨ 1 < (historyUVAt inp x y).1 ∨
      1 < (historyUVAt inp x y).2) :
    CSMain inp x y =
      ([((x, y), currMotionAt inp x y)], [((x, y), currConfAt inp x y)]) := by
  have hb : ¬(inp.width ≤ x ∨ inp.height ≤ y) := by omega
  have hv : validHistoryAt inp x y = false := by
    rcases h with h | h | h | h | h <;> simp [validHistoryAt, h]
  rw [CSMain, if_neg hb]
  simp [hv]

theorem passthrough_exact_witness :
    CSMain inpResetW 0 0 =
      ([((0, 0), ((1 : ℚ), (2 : ℚ)))], [((0, 0), (3/4 : ℚ))]) :=
  passthrough_exact inpResetW 0 0 (by norm_num [inpResetW])
    (by norm_num [inpResetW]) (Or.inl rfl)

/-- Claim C7: every one of the 9 neighborhood reads of `MotionCurr` uses a
coordinate clamped into `[0,width-1] × [0,height-1]`: the read coordinate is
always in range, an offset landing in range is used unchanged, and an offset
landing outside is replaced by the nearest border coordinate on that axis
(edge-clamp, not wrap, not reflect). -/
theorem neighborhood_edge_clamp (inp : Inputs) (x y : Nat)
    (hx : x < inp.width) (hy : y < inp.height) (d : ℤ × ℤ) (hd : d ∈ nbhd) :
    (nPosAt inp x y d).1 < inp.width ∧ (nPosAt inp x y d).2 < inp.height ∧
    (0 ≤ (x : ℤ) + d.1 → (x : ℤ) + d.1 ≤ (inp.width : ℤ) - 1 →
      ((nPosAt inp x y d).1 : ℤ) = (x : ℤ) + d.1) ∧
    ((x : ℤ) + d.1 < 0 → (nPosAt inp x y d).1 = 0) ∧
    ((inp.width : ℤ) - 1 < (x : ℤ) + d.1 →
      ((nPosAt inp x y d).1 : ℤ) = (inp.width : ℤ) - 1) ∧
    (0 ≤ (y : ℤ) + d.2 → (y : ℤ) + d.2 ≤ (inp.height : ℤ) - 1 →
      ((nPosAt inp x y d).2 : ℤ) = (y : ℤ) + d.2) ∧
    ((y : ℤ) + d.2 < 0 → (nPosAt inp x y d).2 = 0) ∧
    ((inp.height : ℤ) - 1 < (y : ℤ) + d.2 →
      ((nPosAt inp x y d).2 : ℤ) = (inp.height : ℤ) - 1) := by
  simp only [nPosAt, clampZ]
  omega

theorem neighborhood_edge_clamp_witness :
    (nPosAt inpResetW 0 0 (-1, -1)).1 < inpResetW.width ∧
    (nPosAt inpResetW 0 0 (-1, -1)).2 < inpResetW.height ∧
    (0 ≤ (0 : ℤ) + (-1, -1).1 → (0 : ℤ) + (-1, -1).1 ≤ (inpResetW.width : ℤ) - 1 →
      ((nPosAt inpResetW 0 0 (-1, -1)).1 : ℤ) = (0 : ℤ) + (-1, -1).1) ∧
    ((0 : ℤ) + (-1, -1).1 < 0 → (nPosAt inpResetW 0 0 (-1, -1)).1 = 0) ∧
    ((inpResetW.width : ℤ) - 1 < (0 : ℤ) + (-1, -1).1 →
      ((nPosAt inpResetW 0 0 (-1, -1)).1 : ℤ) = (inpResetW.width : ℤ) - 1) ∧
    (0 ≤ (0 : ℤ) + (-1, -1).2 → (0 : ℤ) + (-1, -1).2 ≤ (inpResetW.height : ℤ) - 1 →
      ((nPosAt inpResetW 0 0 (-1, -1)).2 : ℤ) = (0 : ℤ) + (-1, -1).2) ∧
    ((0 : ℤ) + (-1, -1).2 < 0 → (nPosAt inpResetW 0 0 (-1, -1)).2 = 0) ∧
    ((inpResetW.height : ℤ) - 1 < (0 : ℤ) + (-1, -1).2 →
      ((nPosAt inpResetW 0 0 (-1, -1)).2 : ℤ) = (inpResetW.height : ℤ) - 1) :=
  neighborhood_edge_clamp inpResetW 0 0 (by norm_num [inpResetW])
    (by norm_num [inpResetW]) (-1, -1) (by norm_num [nbhd])

/-- Claim C8: the per-pixel result is a deterministic function of the consumed
inputs — two dispatches agreeing on the dimensions, both current-frame grids,
both history grids and the reset flag produce identical writes at every
thread id, even when they differ arbitrarily in `lumaPrev`, `lumaCurr`,
`historyWeight` and `confInfluence` (declared but never read). -/
theorem deterministic_unused_inputs (inp inp2 : Inputs) (x y : Nat)
    (hW : inp.width = inp2.width) (hH : inp.height = inp2.height)
    (hM : inp.motionCurr = inp2.motionCurr) (hC : inp.confCurr = inp2.confCurr)
    (hHM : inp.motionHistory = inp2.motionHistory)
    (hHC : inp.confHistory = inp2.confHistory)
    (hR : inp.resetHistory = inp2.resetHistory) :
    CSMain inp x y = CSMain inp2 x y := by
  obtain ⟨w1, h1, mc1, cc1, mh1, ch1, lp1, lc1, hw1, ci1, r1⟩ := inp
  obtain ⟨w2, h2, mc2, cc2, mh2, ch2, lp2, lc2, hw2, ci2, r2⟩ := inp2
  dsimp only at hW hH hM hC hHM hHC hR
  subst hW hH hM hC hHM hHC hR
  rfl

theorem deterministic_unused_inputs_witness :
    CSMain inpResetW 0 0 = CSMain inpResetW2 0 0 :=
  deterministic_unused_inputs inpResetW inpResetW2 0 0 rfl rfl rfl rfl rfl rfl rfl

/-- Claim C9: an invocation whose thread id lies outside
`[0,width) × [0,height)` returns before any write, so it writes nothing at
all; an in-bounds invocation writes exactly one value to each output grid,
both at its own coordinate `(x, y)`. -/
theorem writes_in_bounds (inp : Inputs) (x y : Nat) :
    ((inp.width ≤ x ∨ inp.height ≤ y) → CSMain inp x y = ([], [])) ∧
    (x < inp.width → y < inp.height →
      CSMain inp x y =
        ([((x, y), motionOutAt inp x y)], [((x, y), confOutAt inp x y)])) := by
  constructor
  · intro h
    rw [CSMain, if_pos h]
  · intro hx hy
    have hb : ¬(inp.width ≤ x ∨ inp.height ≤ y) := by omega
    rw [CSMain, if_neg hb]
    cases hvb : validHistoryAt inp x y <;> simp [hvb, motionOutAt, confOutAt]

theorem writes_in_bounds_witness :
    CSMain inpResetW 5 0 = ([], []) ∧
    CSMain inpResetW 0 1 =
      ([((0, 1), motionOutAt inpResetW 0 1)], [((0, 1), confOutAt inpResetW 0 1)]) :=
  ⟨(writes_in_bounds inpResetW 5 0).1 (Or.inl (by norm_num [inpResetW])),
   (writes_in_bounds inpResetW 0 1).2 (by norm_num [inpResetW])
     (by norm_num [inpResetW])⟩

/-- Claim C2: at every valid-history pixel the pre-blend `clampedHistory`
lies componentwise within `[minMotion, maxMotion]`; those bounds are the
componentwise min and max of `currMotion` over the 3×3 edge-clamped
neighborhood (so they bound all 9 neighborhood samples), and they are
computed from the current-frame motion grid only — any dispatch agreeing on
dimensions and `motionCurr` has the same bounds, whatever its history. -/
theorem clamp_containment (inp : Inputs) (x y : Nat)
    (hx : x < inp.width) (hy : y < inp.height)
    (hv : validHistoryAt inp x y = true) :
    ((minMotionAt inp x y).1 ≤ (clampedHistoryAt inp x y).1 ∧
     (clampedHistoryAt inp x y).1 ≤ (maxMotionAt inp x y).1 ∧
     (minMotionAt inp x y).2 ≤ (clampedHistoryAt inp x y).2 ∧
     (clampedHistoryAt inp x y).2 ≤ (maxMotionAt inp x y).2) ∧
    (∀ d ∈ nbhd,
      (minMotionAt inp x y).1 ≤ (nSampleAt inp x y d).1 ∧
      (minMotionAt inp x y).2 ≤ (nSampleAt inp x y d).2 ∧
      (nSampleAt inp x y d).1 ≤ (maxMotionAt inp x y).1 ∧
      (nSampleAt inp x y d).2 ≤ (maxMotionAt inp x y).2) ∧
    (∀ inp2 : Inputs, inp2.width = inp.width → inp2.height = inp.height →
      inp2.motionCurr = inp.motionCurr →
      minMotionAt inp2 x y = minMotionAt inp x y ∧
      maxMotionAt inp2 x y = maxMotionAt inp x y) := by
  have hmin := foldl_vmin_le_init (nbhd.map (nSampleAt inp x y)) (currMotionAt inp x y)
  have hmax := init_le_foldl_vmax (nbhd.map (nSampleAt inp x y)) (currMotionAt inp x y)
  have hlohi1 : (minMotionAt inp x y).1 ≤ (maxMotionAt inp x y).1 := by
    exact le_trans hmin.1 hmax.1
  have hlohi2 : (minMotionAt inp x y).2 ≤ (maxMotionAt inp x y).2 := by
    exact le_trans hmin.2 hmax.2
  refine ⟨?_, ?_, ?_⟩
  · simp only [clampedHistoryAt, vclamp]
    exact ⟨le_min (le_trans (le_max_right _ _) (le_refl _)) hlohi1,
      min_le_right _ _,
      le_min (le_trans (le_max_right _ _) (le_refl _)) hlohi2,
      min_le_right _ _⟩
  · intro d hd
    have hmem : nSampleAt inp x y d ∈ nbhd.map (nSampleAt inp x y) :=
      List.mem_map_of_mem _ hd
    have h1 := foldl_vmin_le_mem (nbhd.map (nSampleAt inp x y))
      (currMotionAt inp x y) (nSampleAt inp x y d) hmem
    have h2 := mem_le_foldl_vmax (nbhd.map (nSampleAt inp x y))
      (currMotionAt inp x y) (nSampleAt inp x y d) hmem
    exact ⟨h1.1, h1.2, h2.1, h2.2⟩
  · intro inp2 hW hH hM
    have hs : nSampleAt inp2 x y = nSampleAt inp x y := by
      funext d
      simp only [nSampleAt, nPosAt, hW, hH, hM]
    constructor <;>
      simp only [minMotionAt, maxMotionAt, currMotionAt, hW, hH, hM, hs]

theorem clamp_containment_witness :
    ((minMotionAt inpZeroW 1 1).1 ≤ (clampedHistoryAt inpZeroW 1 1).1 ∧
     (clampedHistoryAt inpZeroW 1 1).1 ≤ (maxMotionAt inpZeroW 1 1).1 ∧
     (minMotionAt inpZeroW 1 1).2 ≤ (clampedHistoryAt inpZeroW 1 1).2 ∧
     (clampedHistoryAt inpZeroW 1 1).2 ≤ (maxMotionAt inpZeroW 1 1).2) ∧
    (∀ d ∈ nbhd,
      (minMotionAt inpZeroW 1 1).1 ≤ (nSampleAt inpZeroW 1 1 d).1 ∧
      (minMotionAt inpZeroW 1 1).2 ≤ (nSampleAt inpZeroW 1 1 d).2 ∧
      (nSampleAt inpZeroW 1 1 d).1 ≤ (maxMotionAt inpZeroW 1 1).1 ∧
      (nSampleAt inpZeroW 1 1 d).2 ≤ (maxMotionAt inpZeroW 1 1).2) ∧
    (∀ inp2 : Inputs, inp2.width = inpZeroW.width → inp2.height = inpZeroW.height →
      inp2.motionCurr = inpZeroW.motionCurr →
      minMotionAt inp2 1 1 = minMotionAt inpZeroW 1 1 ∧
      maxMotionAt inp2 1 1 = maxMotionAt inpZeroW 1 1) :=
  clamp_containment inpZeroW 1 1 (by norm_num [inpZeroW]) (by norm_num [inpZeroW])
    (by norm_num [validHistoryAt, historyUVAt, uvAt, texelSizeOf, currMotionAt,
      vmul, vsub, inpZeroW])

/-- Claim C3: at every valid-history pixel the blend weight equals the spec's
rule `specAlpha`: zero when `historyConf < 0.2` (this check overrides all
prior adjustments), otherwise a base of 0.5 when `diffLen > 10.0`, else 0.8
when `diffLen > 2.0`, else 0.94 (the 10.0 tier overrides the 2.0 tier),
multiplied by 0.9 when `currConf > 0.9`; the weight always lies in `[0,1]`.
The last two conjuncts verify that the squared-length thresholds used by the
embedding coincide with the Euclidean-length thresholds of the source. -/
theorem adaptive_alpha_rule (inp : Inputs) (x y : Nat)
    (hv : validHistoryAt inp x y = true) :
    alphaAt inp x y =
      specAlpha (sqLen (diffAt inp x y)) (currConfAt inp x y)
        (historyConfAt inp x y) ∧
    0 ≤ alphaAt inp x y ∧ alphaAt inp x y ≤ 1 ∧
    ((10 : ℝ) < lenR (diffAt inp x y) ↔ 100 < sqLen (diffAt inp x y)) ∧
    ((2 : ℝ) < lenR (diffAt inp x y) ↔ 4 < sqLen (diffAt inp x y)) := by
  refine ⟨?_, ?_, ?_, ?_, ?_⟩
  · simp only [alphaAt, alphaOf, specAlpha]
    split_ifs <;> norm_num
  · simp only [alphaAt, alphaOf]
    split_ifs <;> norm_num
  · simp only [alphaAt, alphaOf]
    split_ifs <;> norm_num
  · have h := lenR_gt_iff (diffAt inp x y) 10 (by norm_num)
    rw [show ((10 : ℚ) * 10) = 100 by norm_num] at h
    exact_mod_cast h
  · have h := lenR_gt_iff (diffAt inp x y) 2 (by norm_num)
    rw [show ((2 : ℚ) * 2) = 4 by norm_num] at h
    exact_mod_cast h

theorem adaptive_alpha_rule_witness :
    alphaAt inpZeroW 1 1 =
      specAlpha (sqLen (diffAt inpZeroW 1 1)) (currConfAt inpZeroW 1 1)
        (historyConfAt inpZeroW 1 1) ∧
    0 ≤ alphaAt inpZeroW 1 1 ∧ alphaAt inpZeroW 1 1 ≤ 1 ∧
    ((10 : ℝ) < lenR (diffAt inpZeroW 1 1) ↔ 100 < sqLen (diffAt inpZeroW 1 1)) ∧
    ((2 : ℝ) < lenR (diffAt inpZeroW 1 1) ↔ 4 < sqLen (diffAt inpZeroW 1 1)) :=
  adaptive_alpha_rule inpZeroW 1 1
    (by norm_num [validHistoryAt, historyUVAt, uvAt, texelSizeOf, currMotionAt,
      vmul, vsub, inpZeroW])

/-- Claim C4, counterexample: at pixel (1,1) of `inpTinyDiscard` the history
is valid and its sampled confidence 0.1 is below 0.2, so `alpha = 0` and the
blend yields `currMotion = (0.05, 0)` — but that vector lies inside the
anti-jitter deadzone, so the value actually written to `MotionOut` is
`(0, 0)`, not `currMotion`.  The claim that the *written output* equals
`currMotion` is therefore false (the written confidence does equal
`currConf`). -/
theorem history_discard_written_cex :
    validHistoryAt inpTinyDiscard 1 1 = true ∧
    historyConfAt inpTinyDiscard 1 1 < 1/5 ∧
    currMotionAt inpTinyDiscard 1 1 = (1/20, 0) ∧
    CSMain inpTinyDiscard 1 1 =
      ([((1, 1), ((0 : ℚ), (0 : ℚ)))], [((1, 1), (1/2 : ℚ))]) ∧
    ((0 : ℚ), (0 : ℚ)) ≠ ((1/20 : ℚ), (0 : ℚ)) := by
  refine ⟨?_, ?_, rfl, ?_, ?_⟩
  · norm_num [validHistoryAt, historyUVAt, uvAt, texelSizeOf, currMotionAt,
      vmul, vsub, inpTinyDiscard]
  · norm_num [historyConfAt, sampleLinearClampQ, sampleAxis, bilerpQ, clampZ,
      historyUVAt, uvAt, texelSizeOf, currMotionAt, vmul, vsub, inpTinyDiscard]
  · norm_num [CSMain, validHistoryAt, historyUVAt, uvAt, texelSizeOf,
      currMotionAt, vmul, vsub, currConfAt, finalMotionAt, finalMotionPreAt,
      finalConfAt, alphaAt, alphaOf, diffAt, clampedHistoryAt, historyMotionAt,
      historyConfAt, sampleLinearClamp2, sampleLinearClampQ, sampleAxis,
      bilerpQ, clampZ, minMotionAt, maxMotionAt, nbhd, nSampleAt, nPosAt,
      vmin, vmax, vclamp, sqLen, lerpQ, lerp2, inpTinyDiscard]
  · norm_num [Prod.ext_iff]

/-- Claim C4, amended: at every valid-history pixel whose sampled history
confidence is below 0.2, the blend weight is zero, so the pre-deadzone blend
equals the current values exactly (`finalMotion = currMotion`,
`finalConf = currConf`), even when the deviation is small; the written
confidence equals `currConf`, and the written motion equals `currMotion`
unless `|currMotion| < 0.1`, in which case the deadzone writes `(0, 0)`. -/
theorem history_discard_amended (inp : Inputs) (x y : Nat)
    (hx : x < inp.width) (hy : y < inp.height)
    (hv : validHistoryAt inp x y = true)
    (hc : historyConfAt inp x y < 1/5) :
    alphaAt inp x y = 0 ∧
    finalMotionPreAt inp x y = currMotionAt inp x y ∧
    finalConfAt inp x y = currConfAt inp x y ∧
    (CSMain inp x y).2 = [((x, y), currConfAt inp x y)] ∧
    ((1/100 : ℚ) ≤ sqLen (currMotionAt inp x y) →
      (CSMain inp x y).1 = [((x, y), currMotionAt inp x y)]) ∧
    (sqLen (currMotionAt inp x y) < 1/100 →
      (CSMain inp x y).1 = [((x, y), ((0 : ℚ), (0 : ℚ)))]) := by
  have ha : alphaAt inp x y = 0 := by
    simp only [alphaAt, alphaOf]
    rw [if_pos hc]
  have hm : finalMotionPreAt inp x y = currMotionAt inp x y := by
    rw [finalMotionPreAt, ha]
    simp [lerp2, lerpQ]
  have hcf : finalConfAt inp x y = currConfAt inp x y := by
    rw [finalConfAt, ha]
    simp [lerpQ]
  have hb : ¬(inp.width ≤ x ∨ inp.height ≤ y) := by omega
  have hcs : CSMain inp x y =
      ([((x, y), finalMotionAt inp x y)], [((x, y), finalConfAt inp x y)]) := by
    rw [CSMain, if_neg hb]
    simp [hv]
  refine ⟨ha, hm, hcf, ?_, ?_, ?_⟩
  · rw [hcs, hcf]
  · intro h
    rw [hcs]
    simp only [finalMotionAt, hm]
    rw [if_neg (not_lt.mpr h)]
  · intro h
    rw [hcs]
    simp only [finalMotionAt, hm]
    rw [if_pos h]

theorem history_discard_amended_witness :
    alphaAt inpBigDiscard 1 1 = 0 ∧
    finalMotionPreAt inpBigDiscard 1 1 = currMotionAt inpBigDiscard 1 1 ∧
    finalConfAt inpBigDiscard 1 1 = currConfAt inpBigDiscard 1 1 ∧
    (CSMain inpBigDiscard 1 1).2 = [((1, 1), currConfAt inpBigDiscard 1 1)] ∧
    ((1/100 : ℚ) ≤ sqLen (currMotionAt inpBigDiscard 1 1) →
      (CSMain inpBigDiscard 1 1).1 = [((1, 1), currMotionAt inpBigDiscard 1 1)]) ∧
    (sqLen (currMotionAt inpBigDiscard 1 1) < 1/100 →
      (CSMain inpBigDiscard 1 1).1 = [((1, 1), ((0 : ℚ), (0 : ℚ)))]) :=
  history_discard_amended inpBigDiscard 1 1 (by norm_num [inpBigDiscard])
    (by norm_num [inpBigDiscard])
    (by norm_num [validHistoryAt, historyUVAt, uvAt, texelSizeOf, currMotionAt,
      vmul, vsub, inpBigDiscard])
    (by norm_num [historyConfAt, sampleLinearClampQ, sampleAxis, bilerpQ,
      clampZ, historyUVAt, uvAt, texelSizeOf, currMotionAt, vmul, vsub,
      inpBigDiscard])

/-- Claim C5: at every pixel that reaches the blend stage (in bounds, valid
history), if the blended motion before the deadzone check has Euclidean
magnitude strictly below 0.1, the motion written to the output grid is
exactly `(0, 0)`. -/
theorem deadzone_zeroes_motion (inp : Inputs) (x y : Nat)
    (hx : x < inp.width) (hy : y < inp.height)
    (hv : validHistoryAt inp x y = true)
    (hm : lenR (finalMotionPreAt inp x y) < 1/10) :
    finalMotionAt inp x y = (0, 0) ∧
    (CSMain inp x y).1 = [((x, y), ((0 : ℚ), (0 : ℚ)))] := by
  have hm2 : lenR (finalMotionPreAt inp x y) < ((1/10 : ℚ) : ℝ) := by
    rw [show (((1/10 : ℚ)) : ℝ) = 1/10 by norm_num]
    exact hm
  have hsq := (lenR_lt_iff _ (1/10) (by norm_num)).mp hm2
  have hsq2 : sqLen (finalMotionPreAt inp x y) < 1/100 := by linarith
  have hfm : finalMotionAt inp x y = (0, 0) := by
    rw [finalMotionAt, if_pos hsq2]
  have hb : ¬(inp.width ≤ x ∨ inp.height ≤ y) := by omega
  refine ⟨hfm, ?_⟩
  rw [CSMain, if_neg hb]
  simp [hv, hfm]

theorem deadzone_zeroes_motion_witness :
    finalMotionAt inpTinyAgree 1 1 = (0, 0) ∧
    (CSMain inpTinyAgree 1 1).1 = [((1, 1), ((0 : ℚ), (0 : ℚ)))] :=
  deadzone_zeroes_motion inpTinyAgree 1 1 (by norm_num [inpTinyAgree])
    (by norm_num [inpTinyAgree])
    (by norm_num [validHistoryAt, historyUVAt, uvAt, texelSizeOf, currMotionAt,
      vmul, vsub, inpTinyAgree])
    (by
      have h := (lenR_lt_iff (finalMotionPreAt inpTinyAgree 1 1) (1/10)
        (by norm_num)).mpr (by
          norm_num [finalMotionPreAt, alphaAt, alphaOf, diffAt,
            clampedHistoryAt, historyMotionAt, historyConfAt,
            sampleLinearClamp2, sampleLinearClampQ, sampleAxis, bilerpQ,
            clampZ, minMotionAt, maxMotionAt, nbhd, nSampleAt, nPosAt, vmin,
            vmax, vclamp, sqLen, lerpQ, lerp2, currMotionAt, currConfAt,
            historyUVAt, uvAt, texelSizeOf, vmul, vsub, inpTinyAgree])
      rw [show (((1/10 : ℚ)) : ℝ) = 1/10 by norm_num] at h
      exact h)

/-- Claim C10 (implicit): the deadzone affects the motion output only — at
every valid-history pixel where the blended motion falls inside the deadzone,
the written motion is `(0, 0)` while the written confidence is still the
blended value `lerp(currConf, historyConf, alpha)`, neither zeroed nor
recomputed. -/
theorem deadzone_confidence_untouched (inp : Inputs) (x y : Nat)
    (hx : x < inp.width) (hy : y < inp.height)
    (hv : validHistoryAt inp x y = true)
    (hm : lenR (finalMotionPreAt inp x y) < 1/10) :
    (CSMain inp x y).1 = [((x, y), ((0 : ℚ), (0 : ℚ)))] ∧
    (CSMain inp x y).2 =
      [((x, y),
        lerpQ (currConfAt inp x y) (historyConfAt inp x y) (alphaAt inp x y))] := by
  have hm2 : lenR (finalMotionPreAt inp x y) < ((1/10 : ℚ) : ℝ) := by
    rw [show (((1/10 : ℚ)) : ℝ) = 1/10 by norm_num]
    exact hm
  have hsq := (lenR_lt_iff _ (1/10) (by norm_num)).mp hm2
  have hsq2 : sqLen (finalMotionPreAt inp x y) < 1/100 := by linarith
  have hfm : finalMotionAt inp x y = (0, 0) := by
    rw [finalMotionAt, if_pos hsq2]
  have hb : ¬(inp.width ≤ x ∨ inp.height ≤ y) := by omega
  have hcs : CSMain inp x y =
      ([((x, y), finalMotionAt inp x y)], [((x, y), finalConfAt inp x y)]) := by
    rw [CSMain, if_neg hb]
    simp [hv]
  rw [hcs, hfm]
  exact ⟨rfl, rfl⟩

theorem deadzone_confidence_untouched_witness :
    ((CSMain inpTinyAgree 2 2).1 = [((2, 2), ((0 : ℚ), (0 : ℚ)))] ∧
     (CSMain inpTinyAgree 2 2).2 =
       [((2, 2),
         lerpQ (currConfAt inpTinyAgree 2 2) (historyConfAt inpTinyAgree 2 2)
           (alphaAt inpTinyAgree 2 2))]) ∧
    lerpQ (currConfAt inpTinyAgree 2 2) (historyConfAt inpTinyAgree 2 2)
      (alphaAt inpTinyAgree 2 2) = 1 :=
  ⟨deadzone_confidence_untouched inpTinyAgree 2 2 (by norm_num [inpTinyAgree])
    (by norm_num [inpTinyAgree])
    (by norm_num [validHistoryAt, historyUVAt, uvAt, texelSizeOf, currMotionAt,
      vmul, vsub, inpTinyAgree])
    (by
      have h := (lenR_lt_iff (finalMotionPreAt inpTinyAgree 2 2) (1/10)
        (by norm_num)).mpr (by
          norm_num [finalMotionPreAt, alphaAt, alphaOf, diffAt,
            clampedHistoryAt, historyMotionAt, historyConfAt,
            sampleLinearClamp2, sampleLinearClampQ, sampleAxis, bilerpQ,
            clampZ, minMotionAt, maxMotionAt, nbhd, nSampleAt, nPosAt, vmin,
            vmax, vclamp, sqLen, lerpQ, lerp2, currMotionAt, currConfAt,
            historyUVAt, uvAt, texelSizeOf, vmul, vsub, inpTinyAgree])
      rw [show (((1/10 : ℚ)) : ℝ) = 1/10 by norm_num] at h
      exact h),
   by
    norm_num [lerpQ, alphaAt, alphaOf, diffAt, clampedHistoryAt,
      historyMotionAt, historyConfAt, sampleLinearClamp2, sampleLinearClampQ,
      sampleAxis, bilerpQ, clampZ, minMotionAt, maxMotionAt, nbhd, nSampleAt,
      nPosAt, vmin, vmax, vclamp, sqLen, currMotionAt, currConfAt,
      historyUVAt, uvAt, texelSizeOf, vmul, vsub, inpTinyAgree]⟩

/-- The normalized center of an in-bounds texel lies inside `[0, 1]`. -/
lemma uv_mem_unit (w : Nat) (x : Nat) (hx : x < w) :
    0 ≤ ((x : ℚ) + 1/2) * (1 / (w : ℚ)) ∧ ((x : ℚ) + 1/2) * (1 / (w : ℚ)) ≤ 1 := by
  have hw : (0 : ℚ) < (w : ℚ) := by
    have : 0 < w := Nat.pos_of_ne_zero (by omega)
    exact_mod_cast this
  have hx2 : (x : ℚ) + 1 ≤ (w : ℚ) := by exact_mod_cast hx
  have hx0 : (0 : ℚ) ≤ (x : ℚ) := Nat.cast_nonneg x
  constructor
  · have : (0 : ℚ) ≤ (x : ℚ) + 1/2 := by linarith
    exact mul_nonneg this (by positivity)
  · rw [mul_one_div, div_le_one hw]
    linarith

/-- At any in-bounds pixel of a dispatch whose current motion is uniformly
zero, whose current confidence is uniformly one, whose history grids hold the
same uniform state, and whose reset flag is clear, the history is valid and
the kernel reproduces the state exactly. -/
lemma zeroState_pixel (inp : Inputs)
    (hm : inp.motionCurr = fun _ _ => ((0 : ℚ), (0 : ℚ)))
    (hc : inp.confCurr = fun _ _ => (1 : ℚ))
    (hhm : inp.motionHistory = fun _ _ => ((0 : ℚ), (0 : ℚ)))
    (hhc : inp.confHistory = fun _ _ => (1 : ℚ))
    (hr : inp.resetHistory = false)
    (x y : Nat) (hx : x < inp.width) (hy : y < inp.height) :
    validHistoryAt inp x y = true ∧
    motionOutAt inp x y = (0, 0) ∧ confOutAt inp x y = 1 := by
  have huv : historyUVAt inp x y = uvAt inp x y := by
    simp [historyUVAt, currMotionAt, hm, vmul, vsub]
  have hux := uv_mem_unit inp.width x hx
  have huy := uv_mem_unit inp.height y hy
  have hv : validHistoryAt inp x y = true := by
    rw [validHistoryAt_iff, huv]
    simp only [uvAt, texelSizeOf]
    exact ⟨hr, hux.1, huy.1, hux.2, huy.2⟩
  have hsm : historyMotionAt inp x y = (0, 0) := by
    rw [historyMotionAt, hhm, sampleLinearClamp2_const]
  have hsc : historyConfAt inp x y = 1 := by
    rw [historyConfAt, hhc, sampleLinearClampQ_const]
  have hns : nSampleAt inp x y = fun _ => ((0 : ℚ), (0 : ℚ)) := by
    funext d
    simp [nSampleAt, hm]
  have hmin : minMotionAt inp x y = (0, 0) := by
    simp [minMotionAt, hns, nbhd, currMotionAt, hm, vmin]
  have hmax : maxMotionAt inp x y = (0, 0) := by
    simp [maxMotionAt, hns, nbhd, currMotionAt, hm, vmax]
  have hch : clampedHistoryAt inp x y = (0, 0) := by
    simp [clampedHistoryAt, hsm, hmin, hmax, vclamp]
  have hcm : currMotionAt inp x y = (0, 0) := by simp [currMotionAt, hm]
  have hcc : currConfAt inp x y = 1 := by simp [currConfAt, hc]
  have hfmp : finalMotionPreAt inp x y = (0, 0) := by
    simp [finalMotionPreAt, hcm, hch, lerp2, lerpQ]
  have hfc : finalConfAt inp x y = 1 := by
    simp [finalConfAt, hcc, hsc, lerpQ]
  have hfm : finalMotionAt inp x y = (0, 0) := by
    rw [finalMotionAt, hfmp]
    norm_num [sqLen]
  exact ⟨hv, by simp [motionOutAt, hv, hfm], by simp [confOutAt, hv, hfc]⟩

/-- Claim C6: with zero current motion and full current confidence everywhere
and the reset flag clear, a dispatch over all-zero-motion, all-one-confidence
history writes `(0, 0)` and `1` at every in-bounds pixel, and iterating the
filter frame after frame (each frame's output fed back as the next frame's
history) leaves the all-zero-motion, all-one-confidence state unchanged for
every number of frames. -/
theorem zero_motion_fixpoint (inp : Inputs)
    (hm : inp.motionCurr = fun _ _ => ((0 : ℚ), (0 : ℚ)))
    (hc : inp.confCurr = fun _ _ => (1 : ℚ))
    (hr : inp.resetHistory = false) :
    (∀ x y : Nat, x < inp.width → y < inp.height →
      motionOutAt { inp with motionHistory := fun _ _ => (0, 0), confHistory := fun _ _ => 1 } x y = (0, 0) ∧
      confOutAt { inp with motionHistory := fun _ _ => (0, 0), confHistory := fun _ _ => 1 } x y = 1) ∧
    (∀ n : Nat, (frameStep inp)^[n]
      (fun _ _ => ((0 : ℚ), (0 : ℚ)), fun _ _ => (1 : ℚ)) =
      (fun _ _ => ((0 : ℚ), (0 : ℚ)), fun _ _ => (1 : ℚ))) := by
  have key : ∀ x y : Nat, x < inp.width → y < inp.height →
      motionOutAt { inp with motionHistory := fun _ _ => (0, 0), confHistory := fun _ _ => 1 } x y = (0, 0) ∧
      confOutAt { inp with motionHistory := fun _ _ => (0, 0), confHistory := fun _ _ => 1 } x y = 1 := by
    intro x y hx hy
    have h := zeroState_pixel
      { inp with motionHistory := fun _ _ => (0, 0), confHistory := fun _ _ => 1 }
      hm hc rfl rfl hr x y hx hy
    exact ⟨h.2.1, h.2.2⟩
  refine ⟨key, ?_⟩
  intro n
  apply Function.iterate_fixed
  show frameStep inp _ = _
  rw [frameStep]
  simp only [Prod.mk.injEq]
  constructor
  · funext a b
    by_cases hab : a < inp.width ∧ b < inp.height
    · rw [if_pos hab]
      exact (key a b hab.1 hab.2).1
    · rw [if_neg hab]
  · funext a b
    by_cases hab : a < inp.width ∧ b < inp.height
    · rw [if_pos hab]
      exact (key a b hab.1 hab.2).2
    · rw [if_neg hab]

theorem zero_motion_fixpoint_witness :
    (∀ x y : Nat, x < inpZeroFix.width → y < inpZeroFix.height →
      motionOutAt { inpZeroFix with motionHistory := fun _ _ => (0, 0), confHistory := fun _ _ => 1 } x y = (0, 0) ∧
      confOutAt { inpZeroFix with motionHistory := fun _ _ => (0, 0), confHistory := fun _ _ => 1 } x y = 1) ∧
    (∀ n : Nat, (frameStep inpZeroFix)^[n]
      (fun _ _ => ((0 : ℚ), (0 : ℚ)), fun _ _ => (1 : ℚ)) =
      (fun _ _ => ((0 : ℚ), (0 : ℚ)), fun _ _ => (1 : ℚ))) :=
  zero_motion_fixpoint inpZeroFix rfl rfl rfl

end MotionTAA
